import Mathlib

/-!
Shallow embedding of `emmet/abbreviation/convert.py`: the token-to-node
abbreviation converter.  Input token structures (`Tok`, `TAttr`, `TNode`)
and the parser/tokenizer helpers (`is_quote`, `is_bracket`, `stringify`)
are out-of-scope collaborators of the source file and are modelled from
the spec; everything else is translated line by line from the source.
Python exceptions are modelled with `Except String`; Python `None` with
`Option`; Python truthiness is made explicit at each use site.
-/

namespace Emmet

/-- Modelled from the spec (§6, out-of-scope tokenizer): input tokens.
A field-marker token carries an optional numeric index and a placeholder
name; a quote token carries a single/double discriminant; a bracket token
carries an open/close discriminant and a kind tag; every other token is
abstracted as a plain token carrying its rendered text. -/
inductive Tok where
  | field (index : Option Int) (name : String)
  | quote (single : Bool)
  | bracket (isOpen : Bool) (kind : String)
  | plain (s : String)
deriving DecidableEq, Repr

/-- Modelled from the spec (§6): tokens carry a `type` tag naming their
token class (as the source compares `tokens[-1].type == quote.type`). -/
def tokType : Tok → String
  | .field _ _ => "Field"
  | .quote _ => "Quote"
  | .bracket _ _ => "Bracket"
  | .plain _ => "Literal"

/-- Modelled from the spec: the out-of-scope black-box renderer
`stringify(token, state)` (assumed pure by §5); any concrete pure
function is a faithful model, claims do not depend on its internals. -/
def stringify : Tok → String
  | .field _ name => name
  | .quote single => if single then "\x27" else "\x22"
  | .bracket isOpen _ => if isOpen then "(" else ")"
  | .plain s => s

/-- Modelled from the spec: parser helper `is_quote`. -/
def is_quote : Tok → Bool
  | .quote _ => true
  | _ => false

/-- Modelled from the spec: parser helper `is_bracket token kind isOpen`. -/
def is_bracket (t : Tok) (kind : String) (isOpen : Bool) : Bool :=
  match t with
  | .bracket o k => k == kind && o == isOpen
  | _ => false

/-- Source `is_field` (line 232): a `Field` token whose index is defined. -/
def is_field : Tok → Bool
  | .field (some _) _ => true
  | _ => false

/-- Repeat metadata `tokens.Repeater(count, value, implicit)`. -/
structure Repeater where
  count : Option Int
  value : Option Int
  implicit : Bool
deriving DecidableEq, Repr

/-- Source `clone_repeater` (line 258). -/
def clone_repeater (r : Repeater) : Repeater :=
  ⟨r.count, r.value, r.implicit⟩

/-- Modelled from the spec (§6): input attribute token (`TokenAttribute`).
Python `None` and the empty list are indistinguishable here (both falsy in
every use in the source), so absent token lists are modelled as `[]`. -/
structure TAttr where
  name : List Tok
  value : List Tok
  expression : Bool
deriving DecidableEq, Repr

/-- Modelled from the spec (§6): input statements — `TokenElement` and
`TokenGroup` of the out-of-scope parser. -/
inductive TNode where
  | element (name : List Tok) (value : List Tok) (attributes : List TAttr)
      (elements : List TNode) (rep : Option Repeater) (selfClose : Bool)
  | group (elements : List TNode) (rep : Option Repeater)

/-- Child statements of a statement (both parser classes expose `elements`). -/
def TNode.elements : TNode → List TNode
  | .element _ _ _ els _ _ => els
  | .group els _ => els

/-- The `repeat` field of a statement. -/
def TNode.rep : TNode → Option Repeater
  | .element _ _ _ _ r _ => r
  | .group _ r => r

/-- Source `is_group` (line 228): `isinstance(node, TokenGroup)`. -/
def is_group : TNode → Bool
  | .group _ _ => true
  | _ => false

/-- The text payload of the conversion options / state: a single string or
an ordered list of per-iteration strings (`options['text']`). -/
inductive TextVal where
  | strval (s : String)
  | list (l : List String)
deriving DecidableEq, Repr

/-- An item of an output value sequence: the source stores plain Python
strings interleaved with preserved `Field` token objects. -/
inductive ValueItem where
  | str (s : String)
  | tok (t : Tok)
deriving DecidableEq, Repr

/-- `is_field` applied to a value-sequence item, as in
`some(elem.value, is_field)` (line 153): a plain string is never a field. -/
def vitem_is_field : ValueItem → Bool
  | .str _ => false
  | .tok t => is_field t

/-- Output attribute value type tag; the source uses the strings
`raw | expression | singleQuote | doubleQuote`. -/
inductive ValueType where
  | raw
  | expression
  | singleQuote
  | doubleQuote
deriving DecidableEq, Repr

/-- Output attribute (`AbbreviationAttribute` slots, lines 51-52). -/
structure AAttr where
  name : Option String
  value : Option (List ValueItem)
  value_type : ValueType
  boolean : Bool
  implied : Bool
deriving DecidableEq, Repr

/-- Output node (`AbbreviationNode` slots, line 38). -/
inductive ANode where
  | mk (name : Option String) (value : Option (List ValueItem))
      (attributes : Option (List AAttr)) (children : List ANode)
      (rep : Option Repeater) (self_closing : Bool)

def ANode.name : ANode → Option String
  | .mk n _ _ _ _ _ => n

def ANode.value : ANode → Option (List ValueItem)
  | .mk _ v _ _ _ _ => v

def ANode.attributes : ANode → Option (List AAttr)
  | .mk _ _ a _ _ _ => a

def ANode.children : ANode → List ANode
  | .mk _ _ _ c _ _ => c

def ANode.rep : ANode → Option Repeater
  | .mk _ _ _ _ r _ => r

def ANode.self_closing : ANode → Bool
  | .mk _ _ _ _ _ s => s

/-- Replace the `repeat` field of an output node. -/
def ANode.withRep (n : ANode) (r : Option Repeater) : ANode :=
  match n with
  | .mk nm v a c _ s => .mk nm v a c r s

/-- Output root (`Abbreviation`, line 30). -/
structure Abbreviation where
  children : List ANode

/-- Python truthiness of an optional string: `None` and `''` are falsy. -/
def truthy_str : Option String → Bool
  | none => false
  | some s => !s.isEmpty

/-- Python truthiness of an optional list: `None` and `[]` are falsy. -/
def truthy_list {α : Type} : Option (List α) → Bool
  | none => false
  | some l => !l.isEmpty

/-- `ConvertState` slots (lines 6-16); `text_inserted` models the source's
`_text_inserted`.  `repeat_guard` and `variables` are `Option`s because
`convert` (line 78) passes `options.get(...)` results, which are `None`
when the key is absent. -/
structure ConvertState where
  inserted : Bool
  text : Option TextVal
  repeat_guard : Option Int
  vars : Option (List (String × String))
  repeaters : List Repeater
  text_inserted : Bool
deriving DecidableEq, Repr

/-- `ConvertState.__init__` (lines 10-16) as invoked from `convert`
(line 78): all three arguments are passed explicitly (results of
`options.get`), so the Python parameter defaults (`text=None`,
`variables` empty dict, `max_repeat=1000000`) are never used on this
call path and `repeat_guard` is whatever value was passed, including
`None`. -/
def ConvertState.init (text : Option TextVal)
    (vars : Option (List (String × String)))
    (max_repeat : Option Int) : ConvertState :=
  ⟨false, text, max_repeat, vars, [], false⟩

/-- `ConvertState.get_text` (lines 18-24).  Sets `_text_inserted`;
indexing a list payload out of range raises `IndexError`. -/
def get_text (st : ConvertState) (pos : Option Nat) :
    Except String (String × ConvertState) :=
  let st' := { st with text_inserted := true }
  match st.text with
  | some (.list l) =>
    match pos with
    | some p =>
      match l.get? p with
      | some v => .ok (v, st')
      | none => .error "IndexError: list index out of range"
    | none => .ok (String.intercalate "\n" l, st')
  | some (.strval s) => .ok (s, st')
  | none => .ok ("", st')

/-- `ConvertState.get_variable` (lines 26-27); raises when the state's
`variables` mapping (field `vars` here) is `None` (as happens when
options lack the key). -/
def get_variable (st : ConvertState) (name : String) : Except String String :=
  match st.vars with
  | none => .error "AttributeError: NoneType object has no attribute get"
  | some m => .ok ((m.lookup name).getD name)

/-- `state.repeat_guard -= 1` (line 126); raises `TypeError` when the
guard is `None` (i.e. when options carried no `max_repeat` key). -/
def decGuard : Option Int → Except String Int
  | none => .error "TypeError: unsupported operand types for -="
  | some g => .ok (g - 1)

/-- `stringify_name` (lines 198-200). -/
def stringify_name (tokens : List Tok) : String :=
  String.join (tokens.map stringify)

/-- The accumulator loop of `stringify_value` (lines 205-225): `result`
holds completed segments, `accum` the pending rendered strings. -/
def stringify_value_aux (result : List ValueItem) (accum : List String) :
    List Tok → List ValueItem
  | [] => if accum.isEmpty then result else result ++ [.str (String.join accum)]
  | t :: ts =>
    if is_field t then
      let r := if accum.isEmpty then result else result ++ [.str (String.join accum)]
      stringify_value_aux (r ++ [.tok t]) [] ts
    else
      stringify_value_aux result (accum ++ [stringify t]) ts

/-- `stringify_value` (lines 203-225). -/
def stringify_value (token_list : List Tok) : List ValueItem :=
  stringify_value_aux [] [] token_list

/-- `insert_text` (lines 240-248), acting on the value sequence: append
to the last segment if it is a string, else append a new string segment;
a falsy (absent or empty) value becomes the single segment `[text]`. -/
def insert_text_value (v : Option (List ValueItem)) (text : String) :
    List ValueItem :=
  match v with
  | some vs =>
    if vs.isEmpty then [.str text]
    else
      match vs.getLast? with
      | some (.str s) => vs.dropLast ++ [.str (s ++ text)]
      | _ => vs ++ [.str text]
  | none => [.str text]

/-- `deepest_node` (lines 236-237): follow `children[-1]` to the
deepest-last leaf. -/
def deepest_node : ANode → ANode
  | .mk n v a children r s =>
    match children with
    | [] => .mk n v a children r s
    | c :: cs => deepest_node ((c :: cs).getLast (List.cons_ne_nil c cs))
termination_by n => sizeOf n
decreasing_by
  simp only [ANode.mk.sizeOf_spec]
  have hm : (c :: cs).getLast (List.cons_ne_nil c cs) ∈ c :: cs :=
    List.getLast_mem _
  have := List.sizeOf_lt_of_mem hm
  omega

/-- `insert_text(deepest_node(node), text)` as a pure tree rebuild: the
composition of the source's `deepest_node` traversal with the in-place
`insert_text` mutation of that leaf's value. -/
def insert_deepest : ANode → String → ANode
  | .mk n v a children r s, text =>
    match children with
    | [] => .mk n (some (insert_text_value v text)) a children r s
    | c :: cs =>
      .mk n v a
        ((c :: cs).dropLast ++
          [insert_deepest ((c :: cs).getLast (List.cons_ne_nil c cs)) text])
        r s
termination_by n _ => sizeOf n
decreasing_by
  simp only [ANode.mk.sizeOf_spec]
  have hm : (c :: cs).getLast (List.cons_ne_nil c cs) ∈ c :: cs :=
    List.getLast_mem _
  have := List.sizeOf_lt_of_mem hm
  omega

/-- The `single` attribute of a quote token (`quote.single`, line 184). -/
def Tok.single : Tok → Bool
  | .quote s => s
  | _ => false

/-- `AbbreviationAttribute.__init__` (lines 54-72).  When the rendered
name is a single `'.'`, the boolean strip leaves an empty string and the
subsequent `self.name[0]` raises `IndexError`. -/
def mkAttribute (node : TAttr) : Except String AAttr :=
  let name0 : Option String :=
    if node.name.isEmpty then none else some (stringify_name node.name)
  let vt : ValueType := if node.expression then .expression else .raw
  match name0 with
  | none => .ok ⟨none, none, vt, false, false⟩
  | some n =>
    if n.isEmpty then .ok ⟨some n, none, vt, false, false⟩
    else
      let nb : String × Bool :=
        if n.back = '.' then (n.dropRight 1, true) else (n, false)
      if nb.1.isEmpty then .error "IndexError: string index out of range"
      else if nb.1.front = '!' then .ok ⟨some (nb.1.drop 1), none, vt, nb.2, true⟩
      else .ok ⟨some nb.1, none, vt, nb.2, false⟩

/-- `convert_attribute` (lines 170-195).  Note the trailing-quote check
compares only the token `type` tags (`tokens[-1].type == quote.type`),
so a trailing quote of either single/double kind is popped. -/
def convert_attribute (node : TAttr) : Except String AAttr :=
  match mkAttribute node with
  | .error e => .error e
  | .ok attr =>
    match node.value with
    | [] => .ok attr
    | t0 :: rest =>
      let step : List Tok × ValueType :=
        if is_quote t0 then
          let ts :=
            match rest.getLast? with
            | some last => if tokType last == tokType t0 then rest.dropLast else rest
            | none => rest
          (ts, if t0.single then .singleQuote else .doubleQuote)
        else if is_bracket t0 "expression" true then
          let ts :=
            match rest.getLast? with
            | some last => if is_bracket last "expression" false then rest.dropLast else rest
            | none => rest
          (ts, .expression)
        else (t0 :: rest, attr.value_type)
      .ok { attr with value := some (stringify_value step.1), value_type := step.2 }

/-- The list comprehension of line 149, sequencing possible exceptions. -/
def convert_attributes : List TAttr → Except String (List AAttr)
  | [] => .ok []
  | a :: rest =>
    match convert_attribute a with
    | .error e => .error e
    | .ok a' =>
      match convert_attributes rest with
      | .error e => .error e
      | .ok rest' => .ok (a' :: rest')

/-- `attach_repeater` (lines 250-255): items without their own repeat
metadata get a clone of the group's repeater. -/
def attach_repeater (items : List ANode) (repeater : Repeater) : List ANode :=
  items.map fun item =>
    if item.rep.isNone then item.withRep (some (clone_repeater repeater)) else item

/-- `AbbreviationNode.__init__` (lines 40-48): name/value rendered when
the token lists are truthy, repeat cloned, children empty, attributes
absent. -/
def mkAbbreviationNode (name value : List Tok) (rep : Option Repeater)
    (self_close : Bool) : ANode :=
  .mk (if name.isEmpty then none else some (stringify_name name))
      (if value.isEmpty then none else some (stringify_value value))
      none [] (rep.map clone_repeater) self_close

/-- The text payload viewed as a Python list (`isinstance(state.text, list)`). -/
def text_list? : Option TextVal → Option (List String)
  | some (.list l) => some l
  | _ => none

/-- One iteration of the unrolling loop (lines 110-122): set the active
repeater's `value` to `i`, convert the node (through `dispatch`), and if
the repeater is implicit and the state's `inserted` flag is still false,
force-insert this iteration's text into the deepest-last leaf of the
last produced item (`items[-1]` raising `IndexError` when empty). -/
def repeat_iteration
    (dispatch : Option Repeater → ConvertState →
      Except String (List ANode × ConvertState))
    (rep : Repeater) (i : Nat) (st : ConvertState) :
    Except String (List ANode × ConvertState) :=
  match dispatch (some { rep with value := some (i : Int) }) st with
  | .error e => .error e
  | .ok (items, st1) =>
    if rep.implicit && !st1.inserted then
      match items.getLast? with
      | none => .error "IndexError: list index out of range"
      | some target =>
        match get_text st1 (some i) with
        | .error e => .error e
        | .ok (txt, st2) =>
          .ok (items.dropLast ++ [insert_deepest target txt], st2)
    else .ok (items, st1)

/-- The `while i < repeat.count` loop of lines 107-129, with the count
expressed as remaining `fuel` (the loop starts at `i = 0` and advances
`i` by one, so it performs at most `count.toNat` iterations): after each
iteration the emitted items are appended, the repeat guard is
decremented (raising `TypeError` when it is `None`), and the loop stops
once the guard is `<= 0` — the iteration just produced is kept. -/
def repeat_loop
    (dispatch : Option Repeater → ConvertState →
      Except String (List ANode × ConvertState))
    (rep : Repeater) :
    Nat → Nat → List ANode → ConvertState →
    Except String (List ANode × ConvertState)
  | 0, _, acc, st => .ok (acc, st)
  | fuel + 1, i, acc, st =>
    match repeat_iteration dispatch rep i st with
    | .error e => .error e
    | .ok (items, st1) =>
      let acc' := acc ++ items
      match decGuard st1.repeat_guard with
      | .error e => .error e
      | .ok g =>
        let st2 := { st1 with repeat_guard := some g }
        if g ≤ 0 then .ok (acc', st2)
        else repeat_loop dispatch rep fuel (i + 1) acc' st2

mutual

/-- `convert_statement` (lines 92-138).  For a repeated node the repeat
metadata is cloned and normalized (implicit repeater with a list text
payload gets `count = len(text)`, otherwise `count or 1`), pushed on the
repeater stack, the unrolling loop runs, the stack is popped, and for an
implicit repeater the state's `inserted` flag is set to true after the
loop.  The source's temporary mutation `node.repeat = repeat` (restored
at line 132) is modelled by passing the active repeater to the dispatch
explicitly. -/
def convertStatement (node : TNode) (st : ConvertState) :
    Except String (List ANode × ConvertState) :=
  match node.rep with
  | some original =>
    let repc := clone_repeater original
    let cnt : Int :=
      match (if repc.implicit then text_list? st.text else none) with
      | some l => (l.length : Int)
      | none =>
        match repc.count with
        | none => 1
        | some c => if c = 0 then 1 else c
    let rep := { repc with count := some cnt }
    let st' := { st with repeaters := st.repeaters ++ [rep] }
    match repeat_loop (fun r s => dispatchNode node r s) rep cnt.toNat 0 [] st' with
    | .error e => .error e
    | .ok (result, st1) =>
      let st2 := { st1 with repeaters := st1.repeaters.dropLast }
      let st3 := if rep.implicit then { st2 with inserted := true } else st2
      .ok (result, st3)
  | none => dispatchNode node none st
termination_by (sizeOf node, 1)

/-- The dispatch `convert_group(node, state) if is_group(node) else
convert_element(node, state)` (lines 112 and 136); `rep` is the value of
`node.repeat` at the moment of the call (the active loop clone inside an
unrolling loop, `None` otherwise). -/
def dispatchNode (node : TNode) (rep : Option Repeater) (st : ConvertState) :
    Except String (List ANode × ConvertState) :=
  match node with
  | .group els _ => convert_group els rep st
  | .element nm vl ats els _ sc => convert_element nm vl ats els rep sc st
termination_by (sizeOf node, 0)

/-- `convert_group` (lines 159-167): convert all child statements in
order, then, when the group carries repeat metadata, attach it to every
item lacking its own. -/
def convert_group (els : List TNode) (rep : Option Repeater)
    (st : ConvertState) : Except String (List ANode × ConvertState) :=
  match convertChildren els st with
  | .error e => .error e
  | .ok (result, st1) =>
    match rep with
    | some r => .ok (attach_repeater result r, st1)
    | none => .ok (result, st1)
termination_by (sizeOf els, 3)

/-- `convert_element` (lines 141-156): build the output node, convert
child statements into its children, normalize its attributes, and apply
the flattening rule — a node with falsy name, falsy attributes, truthy
value and no field-marker segment returns `[elem] + elem.children`. -/
def convert_element (name value : List Tok) (attrs : List TAttr)
    (els : List TNode) (rep : Option Repeater) (self_close : Bool)
    (st : ConvertState) : Except String (List ANode × ConvertState) :=
  let elem0 := mkAbbreviationNode name value rep self_close
  match convertChildren els st with
  | .error e => .error e
  | .ok (childNodes, st1) =>
    match (if attrs.isEmpty then Except.ok none
           else (convert_attributes attrs).map some) with
    | .error e => .error e
    | .ok attrsOut =>
      let elem := ANode.mk elem0.name elem0.value attrsOut childNodes
        elem0.rep elem0.self_closing
      if !truthy_str elem.name && !truthy_list elem.attributes &&
         truthy_list elem.value && !((elem.value.getD []).any vitem_is_field) then
        .ok (elem :: elem.children, st1)
      else
        .ok ([elem], st1)
termination_by (sizeOf els, 3)

/-- The child-statement folds at lines 145-146 and 161-162: run
`convert_statement` on each child in order and concatenate. -/
def convertChildren (els : List TNode) (st : ConvertState) :
    Except String (List ANode × ConvertState) :=
  match els with
  | [] => .ok ([], st)
  | e :: rest =>
    match convertStatement e st with
    | .error err => .error err
    | .ok (items, st1) =>
      match convertChildren rest st1 with
      | .error err => .error err
      | .ok (more, st2) => .ok (items ++ more, st2)
termination_by (sizeOf els, 2)

end

/-- The options mapping taken by `convert` (line 75); every key is
optional, fetched with `options.get`, so absent keys yield `None`. -/
structure Options where
  text : Option TextVal := none
  vars : Option (List (String × String)) := none
  max_repeat : Option Int := none

/-- The `ConvertState(text, options.get('variables'),
options.get('max_repeat'))` call at line 78. -/
def initial_state (options : Options) : ConvertState :=
  ConvertState.init options.text options.vars options.max_repeat

/-- The join at line 86: `'\n'.join(text) if isinstance(text, list) else
text or ''`. -/
def join_text : Option TextVal → String
  | some (.list l) => String.intercalate "\n" l
  | some (.strval s) => s
  | none => ""

/-- `convert` (lines 75-89): build the state, convert the root group,
and when text was supplied but never consumed through `get_text`,
force-insert the joined text into the deepest-last leaf of the last
top-level node (`result.children[-1]` raising `IndexError` when the
result is empty). -/
def convert (abbr : TNode) (options : Options) : Except String Abbreviation :=
  let st0 := initial_state options
  match convert_group abbr.elements abbr.rep st0 with
  | .error e => .error e
  | .ok (children, st1) =>
    if options.text.isSome && !st1.text_inserted then
      match children.getLast? with
      | none => .error "IndexError: list index out of range"
      | some lastNode =>
        .ok ⟨children.dropLast ++ [insert_deepest lastNode (join_text options.text)]⟩
    else .ok ⟨children⟩

/-! ### Helper lemmas -/

/-- Replace the `value` field of an output node. -/
def ANode.withValue (n : ANode) (v : Option (List ValueItem)) : ANode :=
  match n with
  | .mk nm _ a c r s => .mk nm v a c r s

lemma deepest_node_cons (n : Option String) (v : Option (List ValueItem))
    (a : Option (List AAttr)) (r : Option Repeater) (s : Bool)
    (l : List ANode) (h : l ≠ []) :
    deepest_node (.mk n v a l r s) = deepest_node (l.getLast h) := by
  cases l with
  | nil => exact absurd rfl h
  | cons c cs => rw [deepest_node]

lemma deepest_node_leaf (n : Option String) (v : Option (List ValueItem))
    (a : Option (List AAttr)) (r : Option Repeater) (s : Bool) :
    deepest_node (.mk n v a [] r s) = .mk n v a [] r s := by
  rw [deepest_node]

lemma insert_deepest_cons (n : Option String) (v : Option (List ValueItem))
    (a : Option (List AAttr)) (r : Option Repeater) (s : Bool)
    (l : List ANode) (h : l ≠ []) (t : String) :
    insert_deepest (.mk n v a l r s) t =
      .mk n v a (l.dropLast ++ [insert_deepest (l.getLast h) t]) r s := by
  cases l with
  | nil => exact absurd rfl h
  | cons c cs => rw [insert_deepest]

lemma insert_deepest_leaf (n : Option String) (v : Option (List ValueItem))
    (a : Option (List AAttr)) (r : Option Repeater) (s : Bool) (t : String) :
    insert_deepest (.mk n v a [] r s) t =
      .mk n (some (insert_text_value v t)) a [] r s := by
  rw [insert_deepest]

/-- The deepest-last leaf of a tree after a deepest insertion is the old
deepest-last leaf with its value extended by `insert_text_value`: the
`deepest_node` traversal composed with the in-place `insert_text`. -/
lemma deepest_node_insert_deepest (nd : ANode) (t : String) :
    deepest_node (insert_deepest nd t) =
      (deepest_node nd).withValue
        (some (insert_text_value (deepest_node nd).value t)) := by
  induction nd, t using insert_deepest.induct with
  | case1 n v a r s text =>
    rw [insert_deepest_leaf, deepest_node_leaf, deepest_node_leaf]
    rfl
  | case2 n v a r s text c cs ih =>
    have h : (c :: cs) ≠ [] := List.cons_ne_nil c cs
    rw [insert_deepest_cons n v a r s (c :: cs) h text]
    have h2 : (c :: cs).dropLast ++ [insert_deepest ((c :: cs).getLast h) text] ≠ [] := by
      simp
    rw [deepest_node_cons n v a r s _ h2, List.getLast_concat, ih,
      deepest_node_cons n v a r s (c :: cs) h]

lemma stringify_value_aux_append (ts : List Tok) :
    ∀ (res : List ValueItem) (acc : List String),
      stringify_value_aux res acc ts = res ++ stringify_value_aux [] acc ts := by
  induction ts with
  | nil =>
    intro res acc
    simp only [stringify_value_aux]
    split <;> simp
  | cons t ts ih =>
    intro res acc
    simp only [stringify_value_aux]
    split
    · rw [ih, ih (_ ++ [ValueItem.tok t])]
      by_cases hacc : acc.isEmpty <;> simp [hacc]
    · exact ih res (acc ++ [stringify t])

lemma stringify_value_aux_run (ts : List Tok) :
    ∀ (acc : List String) (rest : List Tok),
      (∀ t ∈ ts, is_field t = false) →
      stringify_value_aux [] acc (ts ++ rest) =
        stringify_value_aux [] (acc ++ ts.map stringify) rest := by
  induction ts with
  | nil =>
    intro acc rest _
    simp
  | cons t ts ih =>
    intro acc rest h
    have ht : is_field t = false := h t (by simp)
    simp only [List.cons_append, stringify_value_aux, ht, Bool.false_eq_true,
      if_false]
    rw [List.append_eq, ih (acc ++ [stringify t]) rest (fun x hx => h x (by simp [hx]))]
    simp

/-! ### Claim theorems -/

/-- C10: the Value Stringifier renders each maximal run of consecutive
non-field tokens into a single joined string segment (flushed only when
the run is non-empty), keeps each defined-index field token as its own
unrendered segment in its original position, and treats field tokens
with an undefined index as ordinary tokens rendered inline. -/
theorem c10_value_stringifier :
    stringify_value [] = [] ∧
    (∀ ts : List Tok, (∀ t ∈ ts, is_field t = false) → ts ≠ [] →
      stringify_value ts = [.str (String.join (ts.map stringify))]) ∧
    (∀ (run : List Tok) (f : Tok) (rest : List Tok),
      (∀ t ∈ run, is_field t = false) → is_field f = true →
      stringify_value (run ++ f :: rest) =
        (if run.isEmpty then [] else [.str (String.join (run.map stringify))]) ++
          .tok f :: stringify_value rest) ∧
    (∀ nm : String, is_field (.field none nm) = false) := by
  refine ⟨rfl, ?_, ?_, fun nm => rfl⟩
  · intro ts h hne
    have hr := stringify_value_aux_run ts [] [] h
    simp only [List.append_nil] at hr
    unfold stringify_value
    rw [hr]
    have hm : (List.map stringify ts).isEmpty = false := by
      simp [List.isEmpty_iff, hne]
    simp [stringify_value_aux, hm]
  · intro run f rest hrun hf
    unfold stringify_value
    rw [stringify_value_aux_run run [] (f :: rest) hrun]
    simp only [stringify_value_aux, hf, if_pos, List.nil_append]
    rw [stringify_value_aux_append]
    by_cases h : run.isEmpty
    · have : run = [] := List.isEmpty_iff.mp h
      simp [this, stringify_value]
    · have hm : (List.map stringify run).isEmpty = false := by
        simp only [List.isEmpty_iff] at h ⊢
        simp [h]
      simp [h, hm, stringify_value]

/-- Witness for C10 at a concrete token list: one non-field run, one
defined-index field, one trailing run. -/
theorem c10_value_stringifier_witness :
    (∀ t ∈ [Tok.plain "a"], is_field t = false) ∧
    stringify_value [Tok.plain "a", Tok.field (some 1) "f", Tok.plain "b"] =
      [ValueItem.str "a", ValueItem.tok (Tok.field (some 1) "f"), ValueItem.str "b"] := by
  constructor
  · decide
  · have h := c10_value_stringifier.2.2.1 [Tok.plain "a"]
      (Tok.field (some 1) "f") [Tok.plain "b"] (by decide) (by decide)
    rw [show [Tok.plain "a", Tok.field (some 1) "f", Tok.plain "b"] =
      [Tok.plain "a"] ++ Tok.field (some 1) "f" :: [Tok.plain "b"] from rfl, h]
    simp [stringify_value, stringify_value_aux, stringify, String.join, is_field]

/-- C3: a converted element whose resulting node has a falsy name, falsy
attributes, a truthy value and no field-marker segment returns the node
followed by all of its children (length `1 + number of children`); in
every other case the result is exactly `[node]`.  For a non-repeated
element, `convert_statement` delegates directly to `convert_element`. -/
theorem c3_element_flattening :
    (∀ (nm vl : List Tok) (ats : List TAttr) (els : List TNode)
        (rep : Option Repeater) (sc : Bool) (st : ConvertState)
        (res : List ANode) (st' : ConvertState),
      convert_element nm vl ats els rep sc st = .ok (res, st') →
      ∃ elem : ANode, res.head? = some elem ∧
        ((truthy_str elem.name = false ∧ truthy_list elem.attributes = false ∧
          truthy_list elem.value = true ∧
          (elem.value.getD []).any vitem_is_field = false) →
            res = elem :: elem.children ∧ res.length = 1 + elem.children.length) ∧
        (¬(truthy_str elem.name = false ∧ truthy_list elem.attributes = false ∧
           truthy_list elem.value = true ∧
           (elem.value.getD []).any vitem_is_field = false) →
            res = [elem])) ∧
    (∀ (nm vl : List Tok) (ats : List TAttr) (els : List TNode) (sc : Bool)
        (st : ConvertState),
      convertStatement (.element nm vl ats els none sc) st =
        convert_element nm vl ats els none sc st) := by
  constructor
  · intro nm vl ats els rep sc st res st' h
    rw [convert_element] at h
    cases hc : convertChildren els st with
    | error e => rw [hc] at h; simp at h
    | ok p =>
      obtain ⟨cn, st1⟩ := p
      rw [hc] at h
      cases ha : (if ats.isEmpty then Except.ok none
          else (convert_attributes ats).map some) with
      | error e => rw [ha] at h; simp at h
      | ok attrsOut =>
        rw [ha] at h
        simp only at h
        set elem := ANode.mk (mkAbbreviationNode nm vl rep sc).name
          (mkAbbreviationNode nm vl rep sc).value attrsOut cn
          (mkAbbreviationNode nm vl rep sc).rep
          (mkAbbreviationNode nm vl rep sc).self_closing with helem
        have hiff : ((!truthy_str elem.name && !truthy_list elem.attributes &&
            truthy_list elem.value && !(elem.value.getD []).any vitem_is_field) = true) ↔
            (truthy_str elem.name = false ∧ truthy_list elem.attributes = false ∧
             truthy_list elem.value = true ∧
             (elem.value.getD []).any vitem_is_field = false) := by
          simp [Bool.and_eq_true, Bool.not_eq_true', and_assoc]
        by_cases hb : (!truthy_str elem.name && !truthy_list elem.attributes &&
            truthy_list elem.value && !(elem.value.getD []).any vitem_is_field) = true
        · rw [if_pos hb] at h
          simp only [Except.ok.injEq, Prod.mk.injEq] at h
          obtain ⟨hres, hst⟩ := h
          refine ⟨elem, ?_, ?_, ?_⟩
          · rw [← hres]; rfl
          · intro _
            exact ⟨hres.symm, by rw [← hres]; simp [Nat.add_comm]⟩
          · intro hcon; exact absurd (hiff.mp hb) hcon
        · rw [if_neg hb] at h
          simp only [Except.ok.injEq, Prod.mk.injEq] at h
          obtain ⟨hres, hst⟩ := h
          refine ⟨elem, ?_, ?_, ?_⟩
          · rw [← hres]; rfl
          · intro hcon; exact absurd (hiff.mpr hcon) hb
          · intro _; exact hres.symm
  · intro nm vl ats els sc st
    rw [convertStatement]
    simp only [TNode.rep]
    rw [dispatchNode]

/-- Witness for C3 at a concrete flattening input: a name-less element
carrying plain value text and one child. -/
theorem c3_element_flattening_witness :
    convert_element [] [Tok.plain "hi"] []
        [.element [Tok.plain "span"] [] [] [] none false] none false
        (ConvertState.init none none (some 5)) =
      .ok ([ANode.mk none (some [.str "hi"]) none
              [ANode.mk (some "span") none none [] none false] none false,
            ANode.mk (some "span") none none [] none false],
           ConvertState.init none none (some 5)) ∧
    ([ANode.mk none (some [.str "hi"]) none
        [ANode.mk (some "span") none none [] none false] none false,
      ANode.mk (some "span") none none [] none false] : List ANode).length =
      1 + (ANode.mk none (some [.str "hi"]) none
            [ANode.mk (some "span") none none [] none false] none false).children.length := by
  have heval : convert_element [] [Tok.plain "hi"] []
      [.element [Tok.plain "span"] [] [] [] none false] none false
      (ConvertState.init none none (some 5)) =
    .ok ([ANode.mk none (some [.str "hi"]) none
            [ANode.mk (some "span") none none [] none false] none false,
          ANode.mk (some "span") none none [] none false],
         ConvertState.init none none (some 5)) := by
    simp [convert_element, convertChildren, convertStatement, dispatchNode,
      mkAbbreviationNode, ConvertState.init, TNode.rep, stringify_name,
      stringify, stringify_value, stringify_value_aux, is_field, truthy_str,
      truthy_list, vitem_is_field, ANode.name, ANode.value, ANode.attributes,
      ANode.rep, ANode.self_closing, ANode.children, String.join]
  refine ⟨heval, ?_⟩
  obtain ⟨elem, hhead, hflat, _⟩ := c3_element_flattening.1 _ _ _ _ _ _ _ _ _ heval
  have helem : ANode.mk none (some [.str "hi"]) none
      [ANode.mk (some "span") none none [] none false] none false = elem := by
    simpa using hhead
  rw [← helem] at hflat
  exact (hflat (by decide)).2

/-- C4 (failing behaviour): `convert` fetches `max_repeat` with
`options.get`, so an options mapping without the key passes `None` to
`ConvertState` and the repeat guard is initialized to `None` rather than
the documented default of 1,000,000; converting any repeated element
then raises `TypeError` at the `state.repeat_guard -= 1` decrement. -/
theorem c4_repeat_guard_not_defaulted :
    (initial_state {}).repeat_guard = none ∧
    (initial_state {}).repeat_guard ≠ some 1000000 ∧
    convert (.group [.element [Tok.plain "a"] [] [] []
        (some ⟨some 2, none, false⟩) false] none) {} =
      .error "TypeError: unsupported operand types for -=" := by
  refine ⟨rfl, by simp [initial_state, ConvertState.init], ?_⟩
  simp [convert, convert_group, convertChildren, convertStatement, dispatchNode,
    convert_element, mkAbbreviationNode, initial_state, ConvertState.init,
    TNode.elements, TNode.rep, stringify_name, stringify, truthy_str, truthy_list,
    ANode.name, ANode.value, ANode.attributes, ANode.rep, ANode.self_closing,
    String.join, repeat_loop, repeat_iteration, decGuard, clone_repeater,
    text_list?]

/-- C5 (failing behaviour): an attribute whose name renders to the single
delimiter character `'.'` makes `AbbreviationAttribute.__init__` strip
the trailing dot, leaving an empty name, and the subsequent
`self.name[0]` check raises `IndexError` — contradicting the claim that
no operation of the core raises on malformed-but-well-typed input. -/
theorem c5_attribute_dot_name_raises :
    convert_attribute ⟨[Tok.plain "."], [], false⟩ =
      .error "IndexError: string index out of range" := by rfl

/-- C6 (counterexample): the `inserted` flag is NOT restored when a
repeater context is popped — after an implicit repeated statement the
flag stays `true` (its pre-activation value was `false`), so a later
sibling implicit repeat observes it and performs no forced insertion:
the third and fourth `li` nodes below get no text. -/
theorem c6_counterexample_inserted_not_scoped :
    convert_group
      [.element [Tok.plain "li"] [] [] [] (some ⟨none, none, true⟩) false,
       .element [Tok.plain "li"] [] [] [] (some ⟨none, none, true⟩) false] none
      ⟨false, some (.list ["a", "b"]), some 10, none, [], false⟩ =
    .ok ([.mk (some "li") (some [.str "a"]) none [] (some ⟨some 2, some 0, true⟩) false,
          .mk (some "li") (some [.str "b"]) none [] (some ⟨some 2, some 1, true⟩) false,
          .mk (some "li") none none [] (some ⟨some 2, some 0, true⟩) false,
          .mk (some "li") none none [] (some ⟨some 2, some 1, true⟩) false],
         ⟨true, some (.list ["a", "b"]), some 6, none, [], true⟩) := by
  simp [convert_group, convertChildren, convertStatement, dispatchNode,
    convert_element, mkAbbreviationNode, TNode.elements, TNode.rep,
    stringify_name, stringify, truthy_str, truthy_list, ANode.name, ANode.value,
    ANode.attributes, ANode.rep, ANode.self_closing, String.join, repeat_loop,
    repeat_iteration, decGuard, clone_repeater, text_list?, get_text,
    insert_deepest, insert_text_value, ANode.children]

/-- C6 (amended): the `inserted` flag is global, not scoped: after any
implicit repeated-statement activation it is unconditionally `true` and
is never restored on pop, and an iteration that already sees
`inserted = true` performs no forced insertion. -/
theorem c6_inserted_flag_global :
    (∀ (node : TNode) (r : Repeater) (st : ConvertState)
        (res : List ANode) (st' : ConvertState),
      node.rep = some r → r.implicit = true →
      convertStatement node st = .ok (res, st') → st'.inserted = true) ∧
    (∀ (dispatch : Option Repeater → ConvertState →
        Except String (List ANode × ConvertState))
        (rep : Repeater) (i : Nat) (st : ConvertState)
        (items : List ANode) (st1 : ConvertState),
      dispatch (some { rep with value := some (i : Int) }) st = .ok (items, st1) →
      st1.inserted = true →
      repeat_iteration dispatch rep i st = .ok (items, st1)) := by
  constructor
  · intro node r st res st' hrep himp h
    rw [convertStatement, hrep] at h
    simp only [clone_repeater, himp] at h
    split at h
    · simp at h
    · simp only [Except.ok.injEq, Prod.mk.injEq] at h
      obtain ⟨_, hst⟩ := h
      rw [← hst]
      simp
  · intro dispatch rep i st items st1 hd hins
    rw [repeat_iteration, hd]
    simp [hins]

/-- Witness for C6's amended statement at a concrete implicit repeat. -/
theorem c6_inserted_flag_global_witness :
    convertStatement (.element [Tok.plain "li"] [] [] [] (some ⟨none, none, true⟩) false)
        ⟨false, some (.list ["a"]), some 5, none, [], false⟩ =
      .ok ([.mk (some "li") (some [.str "a"]) none [] (some ⟨some 1, some 0, true⟩) false],
           ⟨true, some (.list ["a"]), some 4, none, [], true⟩) ∧
    (⟨true, some (.list ["a"]), some 4, none, [], true⟩ : ConvertState).inserted = true := by
  have heval : convertStatement
      (.element [Tok.plain "li"] [] [] [] (some ⟨none, none, true⟩) false)
      ⟨false, some (.list ["a"]), some 5, none, [], false⟩ =
    .ok ([.mk (some "li") (some [.str "a"]) none [] (some ⟨some 1, some 0, true⟩) false],
         ⟨true, some (.list ["a"]), some 4, none, [], true⟩) := by
    simp [convertStatement, dispatchNode, convert_element, convertChildren,
      mkAbbreviationNode, TNode.rep, stringify_name, stringify, truthy_str,
      truthy_list, ANode.name, ANode.value, ANode.attributes, ANode.rep,
      ANode.self_closing, ANode.children, String.join, repeat_loop,
      repeat_iteration, decGuard, clone_repeater, text_list?, get_text,
      insert_deepest, insert_text_value]
  exact ⟨heval, c6_inserted_flag_global.1
    (.element [Tok.plain "li"] [] [] [] (some ⟨none, none, true⟩) false)
    ⟨none, none, true⟩ _ _ _ rfl rfl heval⟩

/-- C2 (counterexample): an implicit repeated statement converted with an
empty text list gets `count = 0` and the unrolling loop body never runs:
zero iterations are emitted (empty result, guard untouched), refuting
"at least one iteration is always emitted per repeated statement
entered". -/
theorem c2_counterexample_zero_iterations :
    convertStatement (.element [Tok.plain "li"] [] [] [] (some ⟨none, none, true⟩) false)
        ⟨false, some (.list []), some 10, none, [], false⟩ =
      .ok ([], ⟨true, some (.list []), some 10, none, [], false⟩) := by
  simp [convertStatement, TNode.rep, clone_repeater, text_list?, repeat_loop]

/-- C2 (amended): the repeat guard is a single shared counter decremented
by exactly one per unrolled iteration; when the decremented guard is
`<= 0` the unrolling loop stops immediately but the iteration just
produced is still included, so at least one iteration is emitted per
repeated statement entered with a positive effective count; with
`max_repeat = 3` a structure that would otherwise unroll 10 times emits
exactly 3 iterations; a statement whose effective count is zero emits
none. -/
theorem c2_repeat_guard :
    (convert (.group [.element [Tok.plain "a"] [] [] []
        (some ⟨some 10, none, false⟩) false] none) { max_repeat := some 3 } =
      .ok ⟨[.mk (some "a") none none [] (some ⟨some 10, some 0, false⟩) false,
            .mk (some "a") none none [] (some ⟨some 10, some 1, false⟩) false,
            .mk (some "a") none none [] (some ⟨some 10, some 2, false⟩) false]⟩) ∧
    (∀ (dispatch : Option Repeater → ConvertState →
        Except String (List ANode × ConvertState))
        (rep : Repeater) (fuel i : Nat) (acc : List ANode) (st : ConvertState)
        (items : List ANode) (st1 : ConvertState) (g : Int),
      repeat_iteration dispatch rep i st = .ok (items, st1) →
      st1.repeat_guard = some g →
      repeat_loop dispatch rep (fuel + 1) i acc st =
        (if g - 1 ≤ 0 then
          .ok (acc ++ items, { st1 with repeat_guard := some (g - 1) })
         else repeat_loop dispatch rep fuel (i + 1) (acc ++ items)
           { st1 with repeat_guard := some (g - 1) })) ∧
    (∀ (dispatch : Option Repeater → ConvertState →
        Except String (List ANode × ConvertState))
        (rep : Repeater) (acc : List ANode) (st : ConvertState),
      repeat_loop dispatch rep 0 0 acc st = .ok (acc, st)) := by
  refine ⟨?_, ?_, ?_⟩
  · simp [convert, convert_group, convertChildren, convertStatement, dispatchNode,
      convert_element, mkAbbreviationNode, initial_state, ConvertState.init,
      TNode.elements, TNode.rep, stringify_name, stringify, truthy_str, truthy_list,
      ANode.name, ANode.value, ANode.attributes, ANode.rep, ANode.self_closing,
      String.join, repeat_loop, repeat_iteration, decGuard, clone_repeater,
      text_list?]
  · intro dispatch rep fuel i acc st items st1 g hiter hg
    rw [repeat_loop, hiter]
    simp only [hg, decGuard]
  · intro dispatch rep acc st
    rfl

/-- Witness for C2's amended statement: one loop step at guard 3
decrements to 2 and continues with the emitted iteration appended. -/
theorem c2_repeat_guard_witness :
    repeat_iteration
      (fun rp s => dispatchNode
        (.element [Tok.plain "a"] [] [] [] (some ⟨some 10, none, false⟩) false) rp s)
      ⟨some 10, none, false⟩ 0
      ⟨false, none, some 3, none, [⟨some 10, none, false⟩], false⟩ =
      .ok ([.mk (some "a") none none [] (some ⟨some 10, some 0, false⟩) false],
           ⟨false, none, some 3, none, [⟨some 10, none, false⟩], false⟩) ∧
    repeat_loop
      (fun rp s => dispatchNode
        (.element [Tok.plain "a"] [] [] [] (some ⟨some 10, none, false⟩) false) rp s)
      ⟨some 10, none, false⟩ 10 0 []
      ⟨false, none, some 3, none, [⟨some 10, none, false⟩], false⟩ =
    repeat_loop
      (fun rp s => dispatchNode
        (.element [Tok.plain "a"] [] [] [] (some ⟨some 10, none, false⟩) false) rp s)
      ⟨some 10, none, false⟩ 9 1
      ([] ++ [.mk (some "a") none none [] (some ⟨some 10, some 0, false⟩) false])
      ⟨false, none, some 2, none, [⟨some 10, none, false⟩], false⟩ := by
  have hiter : repeat_iteration
      (fun rp s => dispatchNode
        (.element [Tok.plain "a"] [] [] [] (some ⟨some 10, none, false⟩) false) rp s)
      ⟨some 10, none, false⟩ 0
      ⟨false, none, some 3, none, [⟨some 10, none, false⟩], false⟩ =
      .ok ([.mk (some "a") none none [] (some ⟨some 10, some 0, false⟩) false],
           ⟨false, none, some 3, none, [⟨some 10, none, false⟩], false⟩) := by
    simp [repeat_iteration, dispatchNode, convert_element, convertChildren,
      mkAbbreviationNode, stringify_name, stringify, truthy_str, truthy_list,
      ANode.name, ANode.value, ANode.attributes, ANode.rep, ANode.self_closing,
      String.join, clone_repeater]
  refine ⟨hiter, ?_⟩
  have h := c2_repeat_guard.2.1 _ ⟨some 10, none, false⟩ 9 0 [] _ _ _ 3 hiter rfl
  rw [h]
  norm_num

/-- Case analysis of `convert_element`'s result: there is a constructed
node `elem` such that the result is `elem :: elem.children` when the
flattening condition holds and `[elem]` otherwise. -/
lemma convert_element_cases (nm vl : List Tok) (ats : List TAttr)
    (els : List TNode) (rep : Option Repeater) (sc : Bool) (st : ConvertState)
    (res : List ANode) (st' : ConvertState)
    (h : convert_element nm vl ats els rep sc st = .ok (res, st')) :
    ∃ elem : ANode,
      ((!truthy_str elem.name && !truthy_list elem.attributes &&
        truthy_list elem.value && !(elem.value.getD []).any vitem_is_field) = true →
        res = elem :: elem.children) ∧
      ((!truthy_str elem.name && !truthy_list elem.attributes &&
        truthy_list elem.value && !(elem.value.getD []).any vitem_is_field) = false →
        res = [elem]) := by
  rw [convert_element] at h
  cases hc : convertChildren els st with
  | error e => rw [hc] at h; simp at h
  | ok p =>
    obtain ⟨cn, st1⟩ := p
    rw [hc] at h
    cases ha : (if ats.isEmpty then Except.ok none
        else (convert_attributes ats).map some) with
    | error e => rw [ha] at h; simp at h
    | ok attrsOut =>
      rw [ha] at h
      simp only at h
      refine ⟨ANode.mk (mkAbbreviationNode nm vl rep sc).name
        (mkAbbreviationNode nm vl rep sc).value attrsOut cn
        (mkAbbreviationNode nm vl rep sc).rep
        (mkAbbreviationNode nm vl rep sc).self_closing, ?_, ?_⟩
      · intro hb
        rw [if_pos hb] at h
        simp only [Except.ok.injEq, Prod.mk.injEq] at h
        exact h.1.symm
      · intro hb
        rw [if_neg (by simp [hb])] at h
        simp only [Except.ok.injEq, Prod.mk.injEq] at h
        exact h.1.symm

/-- C7 (counterexample): the flattening rule makes a wrapped child node
appear BOTH in the wrapper's `children` list and as a top-level sibling
in the output root's children — in the source these are the very same
object reference (`result += elem.children`), so children lists are not
exclusively owned. -/
theorem c7_counterexample_shared_children :
    convert (.group [.element [] [Tok.plain "hi"] []
        [.element [Tok.plain "span"] [] [] [] none false] none false] none) {} =
      .ok ⟨[.mk none (some [.str "hi"]) none
              [.mk (some "span") none none [] none false] none false,
            .mk (some "span") none none [] none false]⟩ ∧
    (ANode.mk none (some [.str "hi"]) none
        [.mk (some "span") none none [] none false] none false).children =
      [.mk (some "span") none none [] none false] := by
  constructor
  · simp [convert, convert_group, convertChildren, convertStatement, dispatchNode,
      convert_element, mkAbbreviationNode, initial_state, ConvertState.init,
      TNode.elements, TNode.rep, stringify_name, stringify, stringify_value,
      stringify_value_aux, is_field, truthy_str, truthy_list, vitem_is_field,
      ANode.name, ANode.value, ANode.attributes, ANode.rep, ANode.self_closing,
      ANode.children, String.join]
  · rfl

/-- C7 (amended): the output is an acyclic tree of values, but children
lists are not exclusively owned: whenever `convert_element` returns more
than one node, the extra nodes are exactly the first node's children,
which therefore occur both inside the wrapper's `children` and as its
siblings in the returned list. -/
theorem c7_flattening_shares_children :
    ∀ (nm vl : List Tok) (ats : List TAttr) (els : List TNode)
      (rep : Option Repeater) (sc : Bool) (st : ConvertState)
      (res : List ANode) (st' : ConvertState) (elem : ANode) (rest : List ANode),
      convert_element nm vl ats els rep sc st = .ok (res, st') →
      res = elem :: rest → rest ≠ [] →
      rest = elem.children ∧ elem.children ⊆ res := by
  intro nm vl ats els rep sc st res st' elem rest h hres hne
  obtain ⟨elemC, hflat, hnof⟩ := convert_element_cases nm vl ats els rep sc st res st' h
  by_cases hb : (!truthy_str elemC.name && !truthy_list elemC.attributes &&
      truthy_list elemC.value && !(elemC.value.getD []).any vitem_is_field) = true
  · have h1 := hflat hb
    rw [hres] at h1
    obtain ⟨rfl, hrest⟩ : elem = elemC ∧ rest = elemC.children := by
      injection h1 with h2 h3; exact ⟨h2, h3⟩
    refine ⟨hrest, ?_⟩
    rw [hres, ← hrest]
    exact List.subset_cons_self _ _
  · have h1 := hnof (by simpa using hb)
    rw [hres] at h1
    injection h1 with h2 h3
    exact absurd h3 hne

/-- Witness for C7's amended statement at a concrete flattening input. -/
theorem c7_flattening_shares_children_witness :
    ([ANode.mk (some "span") none none [] none false] : List ANode) =
      (ANode.mk none (some [.str "hi"]) none
        [ANode.mk (some "span") none none [] none false] none false).children ∧
    (ANode.mk none (some [.str "hi"]) none
        [ANode.mk (some "span") none none [] none false] none false).children ⊆
      [ANode.mk none (some [.str "hi"]) none
          [ANode.mk (some "span") none none [] none false] none false,
       ANode.mk (some "span") none none [] none false] := by
  have heval : convert_element [] [Tok.plain "hi"] []
      [.element [Tok.plain "span"] [] [] [] none false] none false
      (ConvertState.init none none (some 5)) =
    .ok ([ANode.mk none (some [.str "hi"]) none
            [ANode.mk (some "span") none none [] none false] none false,
          ANode.mk (some "span") none none [] none false],
         ConvertState.init none none (some 5)) := by
    simp [convert_element, convertChildren, convertStatement, dispatchNode,
      mkAbbreviationNode, ConvertState.init, TNode.rep, stringify_name,
      stringify, stringify_value, stringify_value_aux, is_field, truthy_str,
      truthy_list, vitem_is_field, ANode.name, ANode.value, ANode.attributes,
      ANode.rep, ANode.self_closing, ANode.children, String.join]
  exact c7_flattening_shares_children _ _ _ _ _ _ _ _ _ _ _ heval rfl (by simp)

/-- C9 (counterexample): for a double-quoted value whose trailing token is
a SINGLE quote, the source still pops the trailing token (it compares
only the `type` tags, not the single/double kind), yielding value
`["x"]` — the claim's reading (only a trailing quote of the same kind is
removed) would leave the rendered single quote in the value. -/
theorem c9_counterexample_mismatched_quote :
    convert_attribute ⟨[Tok.plain "a"],
        [Tok.quote false, Tok.plain "x", Tok.quote true], false⟩ =
      .ok ⟨some "a", some [.str "x"], .doubleQuote, false, false⟩ ∧
    stringify_value [Tok.plain "x", Tok.quote true] = [.str "x\x27"] ∧
    ([ValueItem.str "x"] : List ValueItem) ≠ [.str "x\x27"] := by
  refine ⟨rfl, rfl, by decide⟩

/-- C9 (amended): a leading quote token is removed and sets `valueType`
to `singleQuote`/`doubleQuote` per its kind; a trailing QUOTE token of
either kind (matched by token type tag, not by single/double) is also
removed; a value list holding only one unmatched quote or one opening
expression bracket yields an empty value sequence without error. -/
theorem c9_attribute_value_quotes :
    (∀ (node : TAttr) (q : Bool) (rest : List Tok) (attr : AAttr),
      node.value = .quote q :: rest →
      convert_attribute node = .ok attr →
      attr.value_type = (if q then ValueType.singleQuote else ValueType.doubleQuote) ∧
      attr.value = some (stringify_value
        (match rest.getLast? with
         | some last => if is_quote last then rest.dropLast else rest
         | none => rest))) ∧
    (∀ (node : TAttr) (attr : AAttr),
      node.value = [.bracket true "expression"] →
      convert_attribute node = .ok attr →
      attr.value = some [] ∧ attr.value_type = ValueType.expression) := by
  constructor
  · intro node q rest attr hv h
    rw [convert_attribute] at h
    cases hm : mkAttribute node with
    | error e => rw [hm] at h; simp at h
    | ok attr0 =>
      rw [hm, hv] at h
      have hq : is_quote (Tok.quote q) = true := rfl
      simp only [hq, if_pos] at h
      have htt : ∀ last : Tok,
          (tokType last == tokType (Tok.quote q)) = is_quote last := by
        intro last; cases last <;> simp [tokType, is_quote]
      simp only [htt, Tok.single] at h
      cases hl : rest.getLast? with
      | none =>
        rw [hl] at h
        simp only [Except.ok.injEq] at h
        rw [← h]
        exact ⟨rfl, rfl⟩
      | some last =>
        rw [hl] at h
        simp only [Except.ok.injEq] at h
        rw [← h]
        by_cases hqq : is_quote last <;> simp [hqq]
  · intro node attr hv h
    rw [convert_attribute] at h
    cases hm : mkAttribute node with
    | error e => rw [hm] at h; simp at h
    | ok attr0 =>
      rw [hm, hv] at h
      simp only [is_quote, is_bracket, Bool.false_eq_true, if_false] at h
      simp only [Except.ok.injEq] at h
      rw [← h]
      exact ⟨rfl, rfl⟩

/-- Witness for C9's amended statement: single-quoted value with a
trailing single quote. -/
theorem c9_attribute_value_quotes_witness :
    convert_attribute ⟨[Tok.plain "a"],
        [Tok.quote true, Tok.plain "x", Tok.quote true], false⟩ =
      .ok ⟨some "a", some [.str "x"], .singleQuote, false, false⟩ ∧
    (⟨some "a", some [.str "x"], ValueType.singleQuote, false, false⟩ : AAttr).value_type =
      (if true then ValueType.singleQuote else ValueType.doubleQuote) := by
  have heval : convert_attribute ⟨[Tok.plain "a"],
      [Tok.quote true, Tok.plain "x", Tok.quote true], false⟩ =
    .ok ⟨some "a", some [.str "x"], .singleQuote, false, false⟩ := rfl
  exact ⟨heval,
    (c9_attribute_value_quotes.1 _ true [Tok.plain "x", Tok.quote true] _ rfl heval).1⟩

/-- C8: for a top-level `convert` where text was provided and the
traversal never read it through the per-iteration accessor, the full
joined text is force-inserted into the deepest-last-child leaf of the
last top-level node, with `insert_text_value`'s append-to-last-string or
new-segment rule applied to that leaf's value. -/
theorem c8_toplevel_text_fallback :
    ∀ (abbr : TNode) (options : Options) (t : TextVal)
      (children : List ANode) (st1 : ConvertState) (hne : children ≠ []),
      options.text = some t →
      convert_group abbr.elements abbr.rep (initial_state options) = .ok (children, st1) →
      st1.text_inserted = false →
      convert abbr options =
        .ok ⟨children.dropLast ++
          [insert_deepest (children.getLast hne) (join_text options.text)]⟩ ∧
      deepest_node (insert_deepest (children.getLast hne) (join_text options.text)) =
        (deepest_node (children.getLast hne)).withValue
          (some (insert_text_value
            (deepest_node (children.getLast hne)).value (join_text options.text))) := by
  intro abbr options t children st1 hne htext hgroup hti
  refine ⟨?_, deepest_node_insert_deepest _ _⟩
  rw [convert]
  rw [hgroup]
  simp only [htext, Option.isSome_some, hti, Bool.not_false, Bool.and_self,
    if_true, List.getLast?_eq_getLast children hne]

/-- Witness for C8: a single `div` with text `"hello"` and no repeaters
gets `"hello"` as its value. -/
theorem c8_toplevel_text_fallback_witness :
    convert (.group [.element [Tok.plain "div"] [] [] [] none false] none)
        { text := some (.strval "hello") } =
      .ok ⟨[.mk (some "div") (some [.str "hello"]) none [] none false]⟩ := by
  have hgroup : convert_group
      (TNode.group [.element [Tok.plain "div"] [] [] [] none false] none).elements
      (TNode.group [.element [Tok.plain "div"] [] [] [] none false] none).rep
      (initial_state { text := some (.strval "hello") }) =
    .ok ([.mk (some "div") none none [] none false],
         ⟨false, some (.strval "hello"), none, none, [], false⟩) := by
    simp [convert_group, convertChildren, convertStatement, dispatchNode,
      convert_element, mkAbbreviationNode, initial_state, ConvertState.init,
      TNode.elements, TNode.rep, stringify_name, stringify, truthy_str,
      truthy_list, ANode.name, ANode.value, ANode.attributes, ANode.rep,
      ANode.self_closing, String.join]
  have h := (c8_toplevel_text_fallback
    (.group [.element [Tok.plain "div"] [] [] [] none false] none)
    { text := some (.strval "hello") } (.strval "hello")
    [.mk (some "div") none none [] none false] _ (by simp) rfl hgroup rfl).1
  rw [h]
  simp [insert_deepest_leaf, insert_text_value, join_text]

/-- C1: for a statement with an implicit repeater and a list text payload
of length M, the unrolling count becomes M (the statement converts via
the unrolling loop with count M), and in each iteration whose dispatch
leaves the `inserted` flag false the iteration's text element is
force-inserted into the deepest-last-child leaf of the last output node
of that iteration; when the flag is already true no forced insertion
happens. -/
theorem c1_implicit_repeat_text :
    (∀ (node : TNode) (r : Repeater) (st : ConvertState) (l : List String),
      node.rep = some r → r.implicit = true → st.text = some (.list l) →
      convertStatement node st =
        (match repeat_loop (fun rp s => dispatchNode node rp s)
            ⟨some (l.length : Int), r.value, true⟩ ((l.length : Int)).toNat 0 []
            { st with repeaters :=
                st.repeaters ++ [⟨some (l.length : Int), r.value, true⟩] } with
         | .error e => .error e
         | .ok (result, st1) =>
           .ok (result,
             { st1 with repeaters := st1.repeaters.dropLast, inserted := true }))) ∧
    (∀ (dispatch : Option Repeater → ConvertState →
        Except String (List ANode × ConvertState))
        (rep : Repeater) (i : Nat) (st st1 : ConvertState)
        (items : List ANode) (l : List String) (ti : String),
      rep.implicit = true →
      dispatch (some { rep with value := some (i : Int) }) st = .ok (items, st1) →
      st1.text = some (.list l) → l.get? i = some ti →
      (st1.inserted = false → ∀ (hne : items ≠ []),
        repeat_iteration dispatch rep i st =
          .ok (items.dropLast ++ [insert_deepest (items.getLast hne) ti],
               { st1 with text_inserted := true }) ∧
        deepest_node (insert_deepest (items.getLast hne) ti) =
          (deepest_node (items.getLast hne)).withValue
            (some (insert_text_value (deepest_node (items.getLast hne)).value ti))) ∧
      (st1.inserted = true →
        repeat_iteration dispatch rep i st = .ok (items, st1))) := by
  constructor
  · intro node r st l hrep himp htext
    rw [convertStatement, hrep]
    simp only [clone_repeater, himp, htext, text_list?, if_true]
  · intro dispatch rep i st st1 items l ti himp hd htext1 hget
    constructor
    · intro hins hne
      rw [repeat_iteration, hd]
      simp only [himp, hins, Bool.not_false, Bool.and_self, if_true,
        List.getLast?_eq_getLast items hne]
      rw [get_text]
      simp only [htext1, hget]
      constructor
      · rw [hins]
      · exact deepest_node_insert_deepest _ _
    · intro hins
      rw [repeat_iteration, hd]
      simp [hins]

/-- Witness for C1 at a concrete implicit repeat iteration: `li` with
text list `["a", "b"]`, iteration 0 inserting `"a"`. -/
theorem c1_implicit_repeat_text_witness :
    (ConvertState.mk false (some (.list ["a", "b"])) (some 9) none
        [⟨some 2, none, true⟩] false).inserted = false ∧
    repeat_iteration
      (fun rp s => dispatchNode
        (.element [Tok.plain "li"] [] [] [] (some ⟨none, none, true⟩) false) rp s)
      ⟨some 2, none, true⟩ 0
      ⟨false, some (.list ["a", "b"]), some 9, none, [⟨some 2, none, true⟩], false⟩ =
      .ok ([.mk (some "li") (some [.str "a"]) none [] (some ⟨some 2, some 0, true⟩) false],
           ⟨false, some (.list ["a", "b"]), some 9, none, [⟨some 2, none, true⟩], true⟩) := by
  refine ⟨rfl, ?_⟩
  have hd : (fun (rp : Option Repeater) (s : ConvertState) => dispatchNode
      (.element [Tok.plain "li"] [] [] [] (some ⟨none, none, true⟩) false) rp s)
      (some { (⟨some 2, none, true⟩ : Repeater) with value := some ((0 : Nat) : Int) })
      ⟨false, some (.list ["a", "b"]), some 9, none, [⟨some 2, none, true⟩], false⟩ =
      .ok ([.mk (some "li") none none [] (some ⟨some 2, some 0, true⟩) false],
           ⟨false, some (.list ["a", "b"]), some 9, none, [⟨some 2, none, true⟩], false⟩) := by
    simp [dispatchNode, convert_element, convertChildren, mkAbbreviationNode,
      stringify_name, stringify, truthy_str, truthy_list, ANode.name,
      ANode.value, ANode.attributes, ANode.rep, ANode.self_closing,
      String.join, clone_repeater]
  have h := ((c1_implicit_repeat_text.2 _ ⟨some 2, none, true⟩ 0 _ _ _
    ["a", "b"] "a" rfl hd rfl rfl).1 rfl (by simp)).1
  rw [h]
  simp [insert_deepest_leaf, insert_text_value]

end Emmet
